import Mathlib

/-!
Verification of the `lookup` library (path accessor over Go values via
reflection).  The definitions below are a shallow embedding of
`src/lookup.go`: Go `reflect.Value`s become the inductive `Value`,
`reflect.Type`s become `Ty`, and a Go value that is the zero
`reflect.Value` (invalid) is represented by `none : Option Value`.
Go panics are modelled by the distinguished error `Err.panic`, which is
re-raised (never handled) wherever the Go code would merely inspect an
`error` value, since a Go panic unwinds past such checks.
-/

set_option maxHeartbeats 1000000

namespace GoLookup

/-- The reflect kinds the library dispatches on (`reflect.Kind`). -/
inductive Kind where
  | kstr | kint | kbool | kslice | kmap | kstruct | kptr | kiface
  deriving DecidableEq, Repr

mutual

/-- Go types as far as the library inspects them (`reflect.Type`):
strings, ints, bools, slices, maps, structs (ordered fields), pointers,
`interface{}`, and named (defined) types over an underlying type, which
keep the underlying kind (e.g. `type MyKey string`). -/
inductive Ty where
  | str : Ty
  | int : Ty
  | bool : Ty
  | slice : Ty → Ty
  | map : Ty → Ty → Ty
  | struct : FieldTys → Ty
  | ptr : Ty → Ty
  | iface : Ty
  | named : String → Ty → Ty
  deriving DecidableEq, Repr

/-- The ordered field list of a struct type (name and declared type). -/
inductive FieldTys where
  | nil : FieldTys
  | cons : String → Ty → FieldTys → FieldTys
  deriving DecidableEq, Repr

end

/-- `reflect.Type.FieldByName` on a struct type: first field with exactly
the given name. -/
def FieldTys.find? : FieldTys → String → Option Ty
  | .nil, _ => none
  | .cons n t fs, key => if n == key then some t else FieldTys.find? fs key

/-- `reflect.Type.Kind()`: a named type has the kind of its underlying type. -/
def Ty.kind : Ty → Kind
  | .str => .kstr
  | .int => .kint
  | .bool => .kbool
  | .slice _ => .kslice
  | .map _ _ => .kmap
  | .struct _ => .kstruct
  | .ptr _ => .kptr
  | .iface => .kiface
  | .named _ u => u.kind

/-- Unfold named types to the underlying type (used to dispatch on kind). -/
def Ty.unfoldNamed : Ty → Ty
  | .named _ u => u.unfoldNamed
  | t => t

/-- Go runtime values as the library traverses them (`reflect.Value`).
A nil pointer / nil interface gets its own constructor (its `Elem()` is
the invalid value, i.e. `none`).  Struct fields carry their declared
type; map values carry the map's key and element types; slices carry the
element type, so `typeOf` can mirror `reflect.Value.Type()`. -/
inductive Value where
  | vstr : String → Value
  | vint : Int → Value
  | vbool : Bool → Value
  | vslice : Ty → List Value → Value
  | vmap : Ty → Ty → List (String × Value) → Value
  | vstruct : List (String × Ty × Value) → Value
  | vptr : Ty → Value → Value
  | vptrNil : Ty → Value
  | viface : Value → Value
  | vifaceNil : Value
  deriving Repr

mutual

/-- Termination potential of a value (used for the well-founded recursion
of the lookup driver; decoded JSON is bounded by the string's length). -/
def potV : Value → Nat
  | .vstr s => s.length + 2
  | .vint _ => 1
  | .vbool _ => 1
  | .vslice _ es => 1 + potL es
  | .vmap _ _ en => 1 + potE en
  | .vstruct fs => 1 + potF fs
  | .vptr _ w => 1 + potV w
  | .vptrNil _ => 1
  | .viface w => 1 + potV w
  | .vifaceNil => 1

/-- Potential of a list of values. -/
def potL : List Value → Nat
  | [] => 0
  | v :: vs => potV v + potL vs

/-- Potential of a map entry list. -/
def potE : List (String × Value) → Nat
  | [] => 0
  | e :: es => e.1.length + 1 + potV e.2 + potE es

/-- Potential of a struct field list. -/
def potF : List (String × Ty × Value) → Nat
  | [] => 0
  | f :: fs => f.1.length + 1 + potV f.2.2 + potF fs

end

/-- Potential of a possibly-invalid value. -/
def potO : Option Value → Nat
  | none => 0
  | some v => potV v

/-- The field types of a struct value, as a struct type's field list. -/
def fieldTysOf : List (String × Ty × Value) → FieldTys
  | [] => .nil
  | f :: fs => .cons f.1 f.2.1 (fieldTysOf fs)

/-- `reflect.Value.Type()` for valid values. -/
def typeOf : Value → Ty
  | .vstr _ => .str
  | .vint _ => .int
  | .vbool _ => .bool
  | .vslice t _ => .slice t
  | .vmap k e _ => .map k e
  | .vstruct fs => .struct (fieldTysOf fs)
  | .vptr t _ => .ptr t
  | .vptrNil t => .ptr t
  | .viface _ => .iface
  | .vifaceNil => .iface

/-- The loop body of `getRealValue`: repeatedly take `Elem()` while the
value is a pointer or interface; `Elem()` of a nil pointer / nil
interface is the invalid value. -/
def stripValue : Value → Option Value
  | .vptr _ w => stripValue w
  | .vptrNil _ => none
  | .viface w => stripValue w
  | .vifaceNil => none
  | v => some v

/-- `getRealValue` from lookup.go: dereference pointers and interfaces
until a non-indirection (or invalid) value remains. -/
def getRealValue : Option Value → Option Value
  | none => none
  | some v => stripValue v

/-- `reflect.ValueOf(v.Interface())` as applied by the aggregation loop to
each element: unwraps an interface-kinded value to its dynamic value; a
nil interface becomes the invalid value. -/
def valueOfInterface : Value → Option Value
  | .viface w => valueOfInterface w
  | .vifaceNil => none
  | v => some v

/-- ASCII lower-casing of one character. -/
def charToLower (c : Char) : Char :=
  if 'A' ≤ c ∧ c ≤ 'Z' then Char.ofNat (c.toNat + 32) else c

/-- `strings.EqualFold` (modelled as equality of the lowercased
character sequences; the library only folds ASCII names). -/
def eqFold (a b : String) : Bool :=
  a.data.map charToLower == b.data.map charToLower

/-- `v.MapIndex(k)` on a map value: the entry for an exactly matching key,
or the invalid value. -/
def assocFind (entries : List (String × Value)) (k : String) : Option Value :=
  (entries.find? fun e => e.1 == k).map (·.2)

/-- `Options` from lookup.go (field names kept, including the source's
spelling `CaseInsentitive`). -/
structure Options where
  expandStringAsJSON : Bool
  caseInsentitive : Bool
  deriving DecidableEq, Repr

/-- Default options (`Options{}`). -/
def opts0 : Options := ⟨false, false⟩

/-- Options with case-insensitive matching enabled. -/
def optsCI : Options := ⟨false, true⟩

/-- Outcomes other than a value: the three error sentinels of lookup.go
(`ErrMalformedIndex`, `ErrInvalidIndexUsage`, `ErrKeyNotFound`) plus
`panic`, which models a Go runtime panic.  A panic is not a Go `error`
value: it unwinds the whole call, so the model re-raises it at the one
place where the code branches on a returned error. -/
inductive Err where
  | malformedIndex | invalidIndexUsage | keyNotFound | panic
  deriving DecidableEq, Repr

/-- Position of the first occurrence of a character, if any. -/
def charIndex : List Char → Char → Option Nat
  | [], _ => none
  | x :: xs, c => if x = c then some 0 else (charIndex xs c).map (· + 1)

/-- `strings.Index(s, c)` for a single-character separator: byte index of
the first occurrence, or -1.  (For the ASCII characters used here, char
positions and byte positions agree.) -/
def goIndex (cs : List Char) (c : Char) : Int :=
  match charIndex cs c with
  | some n => (n : Int)
  | none => -1

/-- `strconv.Atoi`: optional sign, then decimal digits only; empty or
non-digit input is an error (`none`), as is 64-bit overflow. -/
def goAtoi (cs : List Char) : Option Int :=
  let (sign, digits) :=
    match cs with
    | '-' :: rest => ((-1 : Int), rest)
    | '+' :: rest => ((1 : Int), rest)
    | _ => ((1 : Int), cs)
  if digits.isEmpty then none
  else if digits.all (fun d => d.isDigit) then
    let n : Int := digits.foldl (fun acc d => acc * 10 + ((d.toNat - '0'.toNat : Nat) : Int)) 0
    let v := sign * n
    if -2 ^ 63 ≤ v ∧ v ≤ 2 ^ 63 - 1 then some v else none
  else none

/-- `parseIndex` from lookup.go.  `start`/`stop` are the positions of the
first `[` and first `]` (byte slicing `s[start+1:stop]` panics when
`stop < start+1`, i.e. when the first `]` precedes the first `[`). -/
def parseIndex (s : String) : Except Err (String × Int) :=
  let cs := s.data
  let start := goIndex cs '['
  let stop := goIndex cs ']'
  if start = -1 ∧ stop = -1 then
    .ok (s, -1)
  else if (start ≠ -1 ∧ stop = -1) ∨ (start = -1 ∧ stop ≠ -1) then
    .error .malformedIndex
  else if stop < start then
    .error .panic
  else
    match goAtoi ((cs.take stop.toNat).drop (start.toNat + 1)) with
    | none => .error .malformedIndex
    | some index => .ok (String.mk (cs.take start.toNat), index)

/-- `hasIndex` from lookup.go: the segment contains `[`. -/
def hasIndex (s : String) : Bool :=
  goIndex s.data '[' != -1

/-- The struct arm of `getValueByName`'s switch: `v.FieldByName(key)`,
then, when `CaseInsentitive` is set and no field matched, the first
field (in declaration order) whose name is `EqualFold`-equal to the key. -/
def structLookupStep (fields : List (String × Ty × Value)) (key : String)
    (ci : Bool) : Option Value :=
  let value := (fields.find? fun f => f.1 == key).map (·.2.2)
  if ci ∧ value.isNone then
    match fields.find? (fun f => eqFold f.1 key) with
    | some f => some f.2.2
    | none => none
  else value

/-- The map arm of `getValueByName`'s switch after the probe key is built:
`v.MapIndex(kValue)`, then, when `CaseInsentitive` is set and no entry
matched, iterate the map and look up the first key that is
`EqualFold`-equal to the probe. -/
def mapLookupStep (entries : List (String × Value)) (key : String)
    (ci : Bool) : Option Value :=
  let value := assocFind entries key
  if ci ∧ value.isNone then
    match entries.find? (fun e => eqFold key e.1) with
    | some e => assocFind entries e.1
    | none => none
  else value

/-- The switch of `getValueByName` for non-pointer, non-interface values:
struct field lookup, or map lookup.  Building the map probe key calls
`reflect.New(keyType)` then `SetString`, which panics unless the map's
key type has string kind.  Every other kind leaves `value` invalid. -/
def resolveKey (v : Option Value) (key : String) (opts : Options) :
    Except Err (Option Value) :=
  match v with
  | some (.vstruct fields) => .ok (structLookupStep fields key opts.caseInsentitive)
  | some (.vmap kty _ entries) =>
    if kty.kind ≠ Kind.kstr then .error .panic
    else .ok (mapLookupStep entries key opts.caseInsentitive)
  | _ => .ok none

/-- The tail of `getValueByName`: after `getRealValue`, apply the parsed
index.  `-1` is the no-index sentinel.  With an index, `value.Type()`
panics on the invalid value, a non-slice yields `ErrInvalidIndexUsage`,
and `value.Index(index)` panics when the index is out of range; the
indexed element is passed through `getRealValue` again. -/
def applyIndex (value : Option Value) (index : Int) : Except Err (Option Value) :=
  if index = -1 then .ok value
  else
    match value with
    | none => .error .panic
    | some (.vslice _ es) =>
      if h : 0 ≤ index ∧ index.toNat < es.length then
        .ok (getRealValue (some (es.get ⟨index.toNat, h.2⟩)))
      else .error .panic
    | some _ => .error .invalidIndexUsage

/-- `getValueByName` applied to the invalid value (no switch case
matches, so after a successful parse the result is `ErrKeyNotFound`). -/
def getValueByNameInvalid (key : String) : Except Err (Option Value) :=
  match parseIndex key with
  | .error e => .error e
  | .ok _ => .error .keyNotFound

/-- `getValueByName` from lookup.go on a valid value: parse the segment,
then dispatch on the value's kind; pointers and interfaces recurse on
`Elem()` with the already-stripped key (so a parsed index is re-parsed
away — and lost). -/
def getValueByNameV : Value → String → Options → Except Err (Option Value)
  | v, key, opts =>
    match parseIndex key with
    | .error e => .error e
    | .ok ki =>
      match v with
      | .vptr _ w => getValueByNameV w ki.1 opts
      | .vptrNil _ => getValueByNameInvalid ki.1
      | .viface w => getValueByNameV w ki.1 opts
      | .vifaceNil => getValueByNameInvalid ki.1
      | v' =>
        match resolveKey (some v') ki.1 opts with
        | .error e => .error e
        | .ok value =>
          match value with
          | none => .error .keyNotFound
          | some _ => applyIndex (getRealValue value) ki.2

/-- `getValueByName` from lookup.go, for a possibly-invalid receiver. -/
def getValueByName (v : Option Value) (key : String) (opts : Options) :
    Except Err (Option Value) :=
  match v with
  | none => getValueByNameInvalid key
  | some u => getValueByNameV u key opts

/-- `isAggregable` from lookup.go: the (possibly invalid) value has kind
map or slice. -/
def isAggregable (v : Option Value) : Bool :=
  match v with
  | some (.vslice _ _) => true
  | some (.vmap _ _ _) => true
  | _ => false

/-- `isMergeable` from lookup.go: kind map or slice. -/
def isMergeable (v : Value) : Bool :=
  match v with
  | .vslice _ _ => true
  | .vmap _ _ _ => true
  | _ => false

/-- The elements the aggregation loop visits, via `indexFunction`:
slice elements by position, map entry values in iteration order. -/
def elemsOf : Value → List Value
  | .vslice _ es => es
  | .vmap _ _ en => en.map (·.2)
  | _ => []

/-- Unfolding a named type never increases its size (termination measure
for `lookupType`). -/
theorem Ty.sizeOf_unfoldNamed_le : (t : Ty) → sizeOf (Ty.unfoldNamed t) ≤ sizeOf t
  | .str => le_refl _
  | .int => le_refl _
  | .bool => le_refl _
  | .iface => le_refl _
  | .slice _ => le_refl _
  | .map _ _ => le_refl _
  | .struct _ => le_refl _
  | .ptr _ => le_refl _
  | .named _ u =>
    le_trans (Ty.sizeOf_unfoldNamed_le u) (by simp [Ty.unfoldNamed])

/-- `lookupType` from lookup.go: type-only resolution of the remaining
path, used to type an empty aggregation result.  Dispatch is on the
type's kind (named types delegate to their underlying type, as
`reflect`'s `Elem`/`FieldByName` do). -/
def lookupType (ty : Ty) (path : List String) : Option Ty :=
  match path with
  | [] => some ty
  | seg :: rest =>
    match h : ty.unfoldNamed with
    | .slice e =>
      if hasIndex seg then lookupType e rest else lookupType e (seg :: rest)
    | .map _ e =>
      if hasIndex seg then lookupType e rest else lookupType e (seg :: rest)
    | .ptr e => lookupType e (seg :: rest)
    | .iface => some ty
    | .struct fields =>
      match fields.find? seg with
      | some fty => lookupType fty rest
      | none => none
    | _ => none
termination_by (path.length, sizeOf ty)
decreasing_by
  all_goals try (apply Prod.Lex.left; simp [List.length_cons]; done)
  all_goals
    apply Prod.Lex.right
    have hle := Ty.sizeOf_unfoldNamed_le ty
    rw [h] at hle
    simp at hle ⊢
    omega

/-- `removeZeroValues` from lookup.go: drop the invalid entries. -/
def removeZeroValues (values : List (Option Value)) : List Value :=
  values.filterMap id

/-- `reflect.Type.Elem()` for the two kinds `mergeValue` reaches it with
(slice and map element type); other kinds would panic in Go and are
never consulted here because the call is guarded by `isMergeable`. -/
def tyElem : Ty → Ty
  | .slice e => e
  | .map _ e => e
  | .named _ u => tyElem u
  | t => t

/-- `reflect.AppendSlice(acc, x)` where `acc` has element type `t`: `x`
must be a slice with the identical element type, otherwise Go panics. -/
def appendSliceGo (t : Ty) (acc : List Value) (x : Value) :
    Except Err (List Value) :=
  match x with
  | .vslice tx es => if tx = t then .ok (acc ++ es) else .error .panic
  | _ => .error .panic

/-- `reflect.Append(acc, x)` where `acc` has element type `t`: `x` must
be assignable to `t` (identical type, or `t` is `interface{}`, in which
case `x` is boxed), otherwise Go panics. -/
def appendGo (t : Ty) (acc : List Value) (x : Value) :
    Except Err (List Value) :=
  if typeOf x = t then .ok (acc ++ [x])
  else if t = Ty.iface then .ok (acc ++ [.viface x])
  else .error .panic

/-- The merge loop of `mergeValue`: append every entry (whole-slice
append when the sample was mergeable, single append otherwise). -/
def mergeFold (mergeable : Bool) (t : Ty) (acc : List Value) :
    List Value → Except Err (List Value)
  | [] => .ok acc
  | x :: xs =>
    match (if mergeable then appendSliceGo t acc x else appendGo t acc x) with
    | .error e => .error e
    | .ok acc' => mergeFold mergeable t acc' xs

/-- `mergeValue` from lookup.go: drop invalid entries; with nothing left
return the invalid value; otherwise inspect the first entry (the sample)
and build a slice of the sample's type (element type when the sample is
itself a slice or map), appending every entry. -/
def mergeValue (values : List (Option Value)) : Except Err (Option Value) :=
  match removeZeroValues values with
  | [] => .ok none
  | sample :: rest =>
    let mergeable := isMergeable sample
    let t := typeOf sample
    let t := if mergeable then tyElem t else t
    match mergeFold mergeable t [] (sample :: rest) with
    | .error e => .error e
    | .ok es => .ok (some (.vslice t es))

/-- The JSON decoder used by `expandStringAsJSON`
(`json.Unmarshal` into a `map[string]interface{}`), as a parameter of
the embedding: any decoding function together with the (true of JSON)
fact that a decoded object is no larger than the string it was decoded
from, which bounds the traversal. -/
structure Decoder where
  decode : String → Option (List (String × Value))
  shrink : ∀ s en, decode s = some en → potE en ≤ s.length + 1

/-- The decoder that rejects every string (used to instantiate claims
that do not involve JSON expansion). -/
def noJSON : Decoder :=
  ⟨fun _ => none, fun _ en h => by simp at h⟩

/-- `expandStringAsJSON` from lookup.go: only a valid, non-empty string
value is expanded, and only when it decodes as a JSON object. -/
def expandStringAsJSON (d : Decoder) (v : Option Value) :
    Option (List (String × Value)) :=
  match v with
  | some (.vstr s) => if s = "" then none else d.decode s
  | _ => none

/-- The `if opts.ExpandStringAsJSON { if out := expandStringAsJSON(value);
out != nil { value = reflect.ValueOf(out) } }` step of `lookup`; a
decoded object is a `map[string]interface{}` value. -/
def expandStep (d : Decoder) (opts : Options) (v : Option Value) : Option Value :=
  if opts.expandStringAsJSON then
    match expandStringAsJSON d v with
    | some en => some (.vmap .str .iface en)
    | none => v
  else v

/-- Every value has positive potential. -/
theorem potV_pos : ∀ v : Value, 1 ≤ potV v := by
  intro v
  cases v <;> simp [potV]

/-- JSON expansion does not increase the potential (by `Decoder.shrink`). -/
theorem potO_expandStep_le (d : Decoder) (opts : Options) (v : Option Value) :
    potO (expandStep d opts v) ≤ potO v := by
  unfold expandStep
  split
  · split
    · next en hen =>
      unfold expandStringAsJSON at hen
      split at hen
      · next s =>
        split at hen
        · simp at hen
        · have hs := d.shrink _ _ hen
          simp only [potO, potV]
          omega
      · simp at hen
    · exact le_refl _
  · exact le_refl _

/-- Unwrapping interface boxes does not increase the potential. -/
theorem potO_valueOfInterface_le : ∀ v : Value, potO (valueOfInterface v) ≤ potV v
  | .vstr _ => le_refl _
  | .vint _ => le_refl _
  | .vbool _ => le_refl _
  | .vslice _ _ => le_refl _
  | .vmap _ _ _ => le_refl _
  | .vstruct _ => le_refl _
  | .vptr _ _ => le_refl _
  | .vptrNil _ => le_refl _
  | .viface w =>
    le_trans (potO_valueOfInterface_le w) (by simp [potV])
  | .vifaceNil => by simp [valueOfInterface, potO, potV]

/-- The potential of a map's entry values is bounded by the entry list's. -/
theorem potL_map_snd_le_potE : ∀ en : List (String × Value),
    potL (en.map (·.2)) ≤ potE en := by
  intro en
  induction en with
  | nil => simp [potL, potE]
  | cons e es ih => simp [potL, potE]; omega

mutual

/-- `lookup` from lookup.go: with an empty path return the value itself;
otherwise (after the pre-loop JSON expansion) walk the path.  Called by
the aggregation loop on every element. -/
def lookup (d : Decoder) (v : Option Value) (path : List String)
    (opts : Options) : Except Err (Option Value) :=
  match path with
  | [] => .ok v
  | seg :: rest => lookupLoop d (expandStep d opts v) (seg :: rest) opts
termination_by (path.length, 4 * potO v + 3)
decreasing_by
  apply Prod.Lex.right
  have hx := potO_expandStep_le d opts v
  omega

/-- The `for i, part := range path` loop of `lookup`: expand, resolve the
segment, and on failure fall back to aggregation when the current value
(the `parent`) is aggregable.  A panic from the resolver unwinds (Go
does not reach the aggregation fallback on a panic). -/
def lookupLoop (d : Decoder) (v : Option Value) (path : List String)
    (opts : Options) : Except Err (Option Value) :=
  match path with
  | [] => .ok v
  | part :: rest =>
    let v' := expandStep d opts v
    match getValueByName v' part opts with
    | .ok w => lookupLoop d w rest opts
    | .error .panic => .error .panic
    | .error e =>
      if isAggregable v' then aggreateAggregableValue d v' (part :: rest) opts
      else .error e
termination_by (path.length, 4 * potO v + 2)
decreasing_by
  all_goals try (apply Prod.Lex.left; simp [List.length_cons]; done)
  all_goals apply Prod.Lex.right
  all_goals (have hx := potO_expandStep_le d opts v; omega)

/-- `aggreateAggregableValue` from lookup.go (name kept as in the
source): on an empty collection, type the result with `lookupType`;
otherwise run the full lookup on every element and merge.  On a
non-aggregable value `v.Len()` would panic (unreachable from `lookup`,
which guards with `isAggregable`). -/
def aggreateAggregableValue (d : Decoder) (v : Option Value)
    (path : List String) (opts : Options) : Except Err (Option Value) :=
  match v with
  | some (.vslice ety es) =>
    if es.length = 0 then
      match lookupType (Ty.slice ety) path with
      | some t => .ok (some (.vslice t []))
      | none => .error .keyNotFound
    else
      match collectLookups d es path opts with
      | .error e => .error e
      | .ok vs => mergeValue vs
  | some (.vmap kty ety en) =>
    if en.length = 0 then
      match lookupType (Ty.map kty ety) path with
      | some t => .ok (some (.vslice t []))
      | none => .error .keyNotFound
    else
      match collectLookups d (en.map (·.2)) path opts with
      | .error e => .error e
      | .ok vs => mergeValue vs
  | _ => .error .panic
termination_by (path.length, 4 * potO v + 1)
decreasing_by
  all_goals apply Prod.Lex.right
  · simp only [potO, potV]
    omega
  · rename_i kty ety en hne
    have hx := potL_map_snd_le_potE en
    simp only [potO, potV]
    omega

/-- The per-element loop of `aggreateAggregableValue`: run
`lookup(index(i).Interface(), path, opts)` on each element in order,
aborting on the first failure. -/
def collectLookups (d : Decoder) (es : List Value) (path : List String)
    (opts : Options) : Except Err (List (Option Value)) :=
  match es with
  | [] => .ok []
  | e :: rest =>
    match lookup d (valueOfInterface e) path opts with
    | .error err => .error err
    | .ok w =>
      match collectLookups d rest path opts with
      | .error err => .error err
      | .ok ws => .ok (w :: ws)
termination_by (path.length, 4 * (potL es + 1))
decreasing_by
  all_goals apply Prod.Lex.right
  · have hx := potO_valueOfInterface_le v
    have hy : potV v ≤ potL (v :: vs) := by simp only [potL]; omega
    omega
  · have hx := potV_pos v
    simp only [potL]
    omega

end

/-- Unfolding: `lookup` on the empty path. -/
theorem lookup_nil (d : Decoder) (v : Option Value) (opts : Options) :
    lookup d v [] opts = .ok v := by
  rw [lookup]

/-- Unfolding: `lookup` on a non-empty path pre-expands and enters the loop. -/
theorem lookup_cons (d : Decoder) (v : Option Value) (p : String)
    (rest : List String) (opts : Options) :
    lookup d v (p :: rest) opts =
      lookupLoop d (expandStep d opts v) (p :: rest) opts := by
  rw [lookup]

/-- Unfolding: the loop with no segments left returns the current value. -/
theorem lookupLoop_nil (d : Decoder) (v : Option Value) (opts : Options) :
    lookupLoop d v [] opts = .ok v := by
  rw [lookupLoop]

/-- Unfolding: a successfully resolved segment continues the loop. -/
theorem lookupLoop_ok (d : Decoder) (v w : Option Value) (p : String)
    (rest : List String) (opts : Options)
    (h : getValueByName (expandStep d opts v) p opts = .ok w) :
    lookupLoop d v (p :: rest) opts = lookupLoop d w rest opts := by
  rw [lookupLoop, h]

/-- Unfolding: a panic in the resolver unwinds. -/
theorem lookupLoop_panic (d : Decoder) (v : Option Value) (p : String)
    (rest : List String) (opts : Options)
    (h : getValueByName (expandStep d opts v) p opts = .error .panic) :
    lookupLoop d v (p :: rest) opts = .error .panic := by
  rw [lookupLoop, h]

/-- Unfolding: a failed segment on an aggregable parent falls back to
aggregation with the remaining path (failed segment included). -/
theorem lookupLoop_err_agg (d : Decoder) (v : Option Value) (p : String)
    (rest : List String) (opts : Options) (e : Err) (hp : e ≠ .panic)
    (h : getValueByName (expandStep d opts v) p opts = .error e)
    (hagg : isAggregable (expandStep d opts v) = true) :
    lookupLoop d v (p :: rest) opts =
      aggreateAggregableValue d (expandStep d opts v) (p :: rest) opts := by
  rw [lookupLoop, h]
  cases e with
  | panic => exact absurd rfl hp
  | malformedIndex => simp [hagg]
  | invalidIndexUsage => simp [hagg]
  | keyNotFound => simp [hagg]

/-- Unfolding: a failed segment on a non-aggregable parent aborts the
walk with that error. -/
theorem lookupLoop_err_noagg (d : Decoder) (v : Option Value) (p : String)
    (rest : List String) (opts : Options) (e : Err) (hp : e ≠ .panic)
    (h : getValueByName (expandStep d opts v) p opts = .error e)
    (hagg : isAggregable (expandStep d opts v) = false) :
    lookupLoop d v (p :: rest) opts = .error e := by
  rw [lookupLoop, h]
  cases e with
  | panic => exact absurd rfl hp
  | malformedIndex => simp [hagg]
  | invalidIndexUsage => simp [hagg]
  | keyNotFound => simp [hagg]

/-- Unfolding: aggregation over an empty slice consults `lookupType`. -/
theorem aggreate_slice_empty (d : Decoder) (ety : Ty) (path : List String)
    (opts : Options) :
    aggreateAggregableValue d (some (.vslice ety [])) path opts =
      (match lookupType (Ty.slice ety) path with
       | some t => .ok (some (.vslice t []))
       | none => .error .keyNotFound) := by
  rw [aggreateAggregableValue]
  simp

/-- Unfolding: aggregation over an empty map consults `lookupType`. -/
theorem aggreate_map_empty (d : Decoder) (kty ety : Ty) (path : List String)
    (opts : Options) :
    aggreateAggregableValue d (some (.vmap kty ety [])) path opts =
      (match lookupType (Ty.map kty ety) path with
       | some t => .ok (some (.vslice t []))
       | none => .error .keyNotFound) := by
  rw [aggreateAggregableValue]
  simp

/-- Unfolding: aggregation over a non-empty slice collects and merges. -/
theorem aggreate_slice_cons (d : Decoder) (ety : Ty) (e : Value)
    (es : List Value) (path : List String) (opts : Options) :
    aggreateAggregableValue d (some (.vslice ety (e :: es))) path opts =
      (match collectLookups d (e :: es) path opts with
       | .error err => .error err
       | .ok vs => mergeValue vs) := by
  rw [aggreateAggregableValue]
  simp

/-- Unfolding: aggregation over a non-empty map collects the entry
values in iteration order and merges. -/
theorem aggreate_map_cons (d : Decoder) (kty ety : Ty)
    (e : String × Value) (en : List (String × Value)) (path : List String)
    (opts : Options) :
    aggreateAggregableValue d (some (.vmap kty ety (e :: en))) path opts =
      (match collectLookups d ((e :: en).map (·.2)) path opts with
       | .error err => .error err
       | .ok vs => mergeValue vs) := by
  rw [aggreateAggregableValue]
  simp

/-- Unfolding: collecting over no elements. -/
theorem collect_nil (d : Decoder) (path : List String) (opts : Options) :
    collectLookups d [] path opts = .ok [] := by
  rw [collectLookups]

/-- Unfolding: collecting over an element list runs the full lookup on
the head and recurses. -/
theorem collect_cons (d : Decoder) (e : Value) (es : List Value)
    (path : List String) (opts : Options) :
    collectLookups d (e :: es) path opts =
      (match lookup d (valueOfInterface e) path opts with
       | .error err => .error err
       | .ok w =>
         match collectLookups d es path opts with
         | .error err => .error err
         | .ok ws => .ok (w :: ws)) := by
  rw [collectLookups]

/-- `Lookup` from lookup.go, after the path string has been split into
segments: run `lookup` and unwrap the result with `v.Interface()`;
calling `Interface()` on the invalid (absent) value panics. -/
def Lookup (d : Decoder) (v : Option Value) (path : List String)
    (opts : Options) : Except Err Value :=
  match lookup d v path opts with
  | .ok (some w) => .ok w
  | .ok none => .error .panic
  | .error e => .error e


/-! ### Facts about the segment parser -/

/-- A string with no bracket characters. -/
def bracketFree (s : String) : Prop := '[' ∉ s.data ∧ ']' ∉ s.data

instance (s : String) : Decidable (bracketFree s) := by
  unfold bracketFree
  infer_instance

/-- `charIndex` misses a character that does not occur. -/
theorem charIndex_not_mem : ∀ (cs : List Char) (c : Char), c ∉ cs →
    charIndex cs c = none
  | [], _, _ => rfl
  | x :: xs, c, h => by
    have hx : ¬ x = c := fun hxc => h (hxc ▸ List.mem_cons_self x xs)
    have hr := charIndex_not_mem xs c (fun hm => h (List.mem_cons_of_mem _ hm))
    simp [charIndex, hx, hr]

/-- `charIndex` finds the first occurrence after a clean prefix. -/
theorem charIndex_append : ∀ (pre : List Char) (c : Char) (suf : List Char),
    c ∉ pre → charIndex (pre ++ c :: suf) c = some pre.length
  | [], c, suf, _ => by simp [charIndex]
  | x :: pre, c, suf, h => by
    have hx : ¬ x = c := fun hxc => h (hxc ▸ List.mem_cons_self x pre)
    have hr := charIndex_append pre c suf (fun hm => h (List.mem_cons_of_mem _ hm))
    simp [charIndex, hx, hr]

/-- A bracket-free piece parses to itself with the index absent. -/
theorem parseIndex_noBrackets (s : String) (h : bracketFree s) :
    parseIndex s = .ok (s, -1) := by
  simp only [parseIndex, goIndex, charIndex_not_mem s.data '[' h.1,
    charIndex_not_mem s.data ']' h.2]
  simp

/-- A piece with a `[` but no `]` fails with `MalformedIndex`. -/
theorem parseIndex_dangliOpen (name content : String) (h1 : bracketFree name)
    (h2 : bracketFree content) :
    parseIndex (name ++ "[" ++ content) = .error .malformedIndex := by
  have hdata : (name ++ "[" ++ content).data = name.data ++ '[' :: content.data := by
    simp [String.data_append]
  have hop := charIndex_append name.data '[' content.data h1.1
  have hcl : charIndex (name.data ++ '[' :: content.data) ']' = none := by
    apply charIndex_not_mem
    intro hm
    rcases List.mem_append.mp hm with ha | hb
    · exact h1.2 ha
    · rcases List.mem_cons.mp hb with hc | hd
      · exact absurd hc (by decide)
      · exact h2.2 hd
  simp only [parseIndex, goIndex, hdata, hop, hcl]
  simp

/-- A piece with a `]` but no `[` fails with `MalformedIndex`. -/
theorem parseIndex_dangliClose (name content : String) (h1 : bracketFree name)
    (h2 : bracketFree content) :
    parseIndex (name ++ "]" ++ content) = .error .malformedIndex := by
  have hdata : (name ++ "]" ++ content).data = name.data ++ ']' :: content.data := by
    simp [String.data_append]
  have hcl := charIndex_append name.data ']' content.data h1.2
  have hop : charIndex (name.data ++ ']' :: content.data) '[' = none := by
    apply charIndex_not_mem
    intro hm
    rcases List.mem_append.mp hm with ha | hb
    · exact h1.1 ha
    · rcases List.mem_cons.mp hb with hc | hd
      · exact absurd hc (by decide)
      · exact h2.1 hd
  simp only [parseIndex, goIndex, hdata, hop, hcl]
  simp

/-- With both brackets present (in order), the piece parses exactly when
`strconv.Atoi` accepts the bracketed substring; the name is the prefix
before `[` and the index is whatever integer `Atoi` produced. -/
theorem parseIndex_bracketed (name content : String) (h1 : bracketFree name)
    (h2 : bracketFree content) :
    parseIndex (name ++ "[" ++ content ++ "]") =
      (match goAtoi content.data with
       | none => .error .malformedIndex
       | some i => .ok (name, i)) := by
  have hdata : (name ++ "[" ++ content ++ "]").data
      = name.data ++ '[' :: (content.data ++ [']']) := by
    simp [String.data_append]
  have hop : charIndex (name ++ "[" ++ content ++ "]").data '['
      = some name.data.length := by
    rw [hdata]
    exact charIndex_append name.data '[' (content.data ++ [']']) h1.1
  have hcl : charIndex (name ++ "[" ++ content ++ "]").data ']'
      = some (name.data.length + 1 + content.data.length) := by
    rw [hdata]
    have hassoc : name.data ++ '[' :: (content.data ++ [']'])
        = (name.data ++ '[' :: content.data) ++ ']' :: [] := by simp
    rw [hassoc]
    have hnm : ']' ∉ name.data ++ '[' :: content.data := by
      intro hm
      rcases List.mem_append.mp hm with ha | hb
      · exact h1.2 ha
      · rcases List.mem_cons.mp hb with hc | hd
        · exact absurd hc (by decide)
        · exact h2.2 hd
    have := charIndex_append (name.data ++ '[' :: content.data) ']' [] hnm
    rw [this]
    congr 1
    simp only [List.length_append, List.length_cons]
    omega
  have hmk : String.mk name.data = name := by cases name; rfl
  have htake : ((name ++ "[" ++ content ++ "]").data.take
      (name.data.length + 1 + content.data.length)).drop (name.data.length + 1)
      = content.data := by
    rw [hdata]
    have hassoc : name.data ++ '[' :: (content.data ++ [']'])
        = ((name.data ++ ['[']) ++ content.data) ++ [']'] := by simp
    rw [hassoc]
    have hlen : ((name.data ++ ['[']) ++ content.data).length
        = name.data.length + 1 + content.data.length := by
      simp only [List.length_append, List.length_cons, List.length_nil]
    rw [show name.data.length + 1 + content.data.length
        = ((name.data ++ ['[']) ++ content.data).length from hlen.symm]
    rw [List.take_left]
    rw [show name.data.length + 1 = (name.data ++ ['[']).length by
      simp only [List.length_append, List.length_cons, List.length_nil]]
    rw [List.drop_left]
  have hpre : (name ++ "[" ++ content ++ "]").data.take name.data.length
      = name.data := by
    rw [hdata]
    rw [show name.data.length = name.data.length + 0 by omega]
    rw [List.take_append]
    simp
  simp only [parseIndex, goIndex, hop, hcl]
  rw [if_neg (by omega)]
  rw [if_neg (by omega)]
  rw [if_neg (by omega)]
  simp only [Int.toNat_natCast]
  rw [htake, hpre, hmk]


/-! ### Claim C5 -/

/-- Claim C5, as stated, is false: the bracketed substring is parsed
with `strconv.Atoi`, which accepts signed integers, so `"foo[-2]"`
parses successfully with index `-2` instead of failing with
`MalformedIndex` as the claim requires for a non-non-negative content. -/
theorem c5_counterexample :
    parseIndex "foo[-2]" = .ok ("foo", -2) ∧
      parseIndex "foo[-2]" ≠ .error .malformedIndex := by
  refine ⟨rfl, ?_⟩
  intro h
  rw [show parseIndex "foo[-2]" = .ok ("foo", -2) from rfl] at h
  exact absurd h (by simp)

/-- Claim C5 (amended): for a raw piece built from bracket-free parts,
no bracket present parses to the piece with the index absent; exactly
one dangling bracket fails with `MalformedIndex`; with both brackets
present (`[` first) the substring between them must parse as a signed
integer per `strconv.Atoi` — on failure `MalformedIndex`, on success the
name is the prefix before `[` and the index is the parsed integer,
which may be negative. -/
theorem c5_segment_parsing :
    (∀ s, bracketFree s → parseIndex s = .ok (s, -1)) ∧
    (∀ name content, bracketFree name → bracketFree content →
      parseIndex (name ++ "[" ++ content) = .error .malformedIndex) ∧
    (∀ name content, bracketFree name → bracketFree content →
      parseIndex (name ++ "]" ++ content) = .error .malformedIndex) ∧
    (∀ name content, bracketFree name → bracketFree content →
      parseIndex (name ++ "[" ++ content ++ "]") =
        (match goAtoi content.data with
         | none => .error .malformedIndex
         | some i => .ok (name, i))) :=
  ⟨parseIndex_noBrackets, parseIndex_dangliOpen, parseIndex_dangliClose,
    parseIndex_bracketed⟩

/-- Witness for C5: the amended contract evaluated on `"foo"`, `"foo["`,
`"foo]"`, `"foo[]"` and `"foo[42]"`. -/
theorem c5_witness :
    parseIndex "foo" = .ok ("foo", -1) ∧
    parseIndex "foo[" = .error .malformedIndex ∧
    parseIndex "foo]" = .error .malformedIndex ∧
    parseIndex "foo[]" = .error .malformedIndex ∧
    parseIndex "foo[42]" = .ok ("foo", 42) := by
  refine ⟨c5_segment_parsing.1 "foo" (by decide), ?_, ?_, ?_, ?_⟩
  · have h := c5_segment_parsing.2.1 "foo" "" (by decide) (by decide)
    exact h
  · have h := c5_segment_parsing.2.2.1 "foo" "" (by decide) (by decide)
    exact h
  · have h := c5_segment_parsing.2.2.2 "foo" "" (by decide) (by decide)
    exact h.trans (by rfl)
  · have h := c5_segment_parsing.2.2.2 "foo" "42" (by decide) (by decide)
    exact h.trans (by rfl)

/-! ### Parsing of the `-1` sentinel (towards claim C9) -/

/-- Reassociation of the `name[-1]` piece into the general bracket shape. -/
theorem append_neg1_eq (name : String) :
    name ++ "[-1]" = name ++ "[" ++ "-1" ++ "]" := by
  apply String.ext
  simp [String.data_append]

/-- A piece written `name[-1]` parses successfully, with index `-1`,
which is exactly the internal no-index sentinel. -/
theorem parseIndex_neg1 (name : String) (h : bracketFree name) :
    parseIndex (name ++ "[-1]") = .ok (name, -1) := by
  rw [append_neg1_eq]
  rw [parseIndex_bracketed name "-1" h (by decide)]
  rfl



/-- Unfolding: `lookupType` with an empty path returns the type. -/
theorem lookupType_nil (ty : Ty) : lookupType ty [] = some ty := by
  rw [lookupType]

/-- Unfolding: `lookupType` on a slice type consumes the segment when it
carries an index, and broadcasts otherwise. -/
theorem lookupType_slice (e : Ty) (seg : String) (rest : List String) :
    lookupType (Ty.slice e) (seg :: rest) =
      if hasIndex seg then lookupType e rest else lookupType e (seg :: rest) := by
  rw [lookupType]
  rfl

/-- Unfolding: `lookupType` on a map type consumes the segment when it
carries an index, and broadcasts otherwise. -/
theorem lookupType_map (k e : Ty) (seg : String) (rest : List String) :
    lookupType (Ty.map k e) (seg :: rest) =
      if hasIndex seg then lookupType e rest else lookupType e (seg :: rest) := by
  rw [lookupType]
  rfl

/-- Unfolding: `lookupType` on a struct type resolves the segment by
exact field-name match. -/
theorem lookupType_struct (fields : FieldTys) (seg : String)
    (rest : List String) :
    lookupType (Ty.struct fields) (seg :: rest) =
      (match fields.find? seg with
       | some fty => lookupType fty rest
       | none => none) := by
  rw [lookupType]
  rfl

/-! ### Claim C9 -/

/-- Claim C9 (amended), segment level: a segment written `name[-1]`
resolves identically to bare `name` — the parsed `-1` is the internal
no-index sentinel, so the bracketed `-1` is silently ignored. -/
theorem c9_sentinel_segment (v : Option Value) (name : String)
    (opts : Options) (h : bracketFree name) :
    getValueByName v (name ++ "[-1]") opts = getValueByName v name opts := by
  cases v with
  | none =>
    simp only [getValueByName, getValueByNameInvalid]
    rw [parseIndex_neg1 name h, parseIndex_noBrackets name h]
  | some u =>
    simp only [getValueByName]
    conv_lhs => rw [getValueByNameV]
    conv_rhs => rw [getValueByNameV]
    rw [parseIndex_neg1 name h, parseIndex_noBrackets name h]


/-- A two-field-free struct type `struct{Name int}` used to exercise the
empty-aggregation corner of claim C9. -/
def tyName9 : Ty := .struct (.cons "Name" .int .nil)

/-- The element type `lookupType` infers for `["Name[-1]"]` over
`[]struct{Name int}`: the bracketed segment is treated as indexed, so
the broadcast level is consumed and the struct type itself is returned. -/
theorem lookupType_name9_idx :
    lookupType (Ty.slice tyName9) ["Name[-1]"] = some tyName9 := by
  rw [lookupType_slice]
  rw [if_pos (show hasIndex "Name[-1]" = true from rfl)]
  rw [lookupType_nil]

/-- The element type `lookupType` infers for `["Name"]` over
`[]struct{Name int}`: broadcast into the struct and resolve the field. -/
theorem lookupType_name9_plain :
    lookupType (Ty.slice tyName9) ["Name"] = some Ty.int := by
  rw [lookupType_slice]
  rw [if_neg (by decide)]
  show lookupType tyName9 ["Name"] = some Ty.int
  rw [show tyName9 = Ty.struct (.cons "Name" .int .nil) from rfl]
  rw [lookupType_struct]
  show lookupType Ty.int [] = some Ty.int
  rw [lookupType_nil]

/-- Claim C9, as stated, is false at the public interface: over the
empty slice `[]struct{Name int}{}`, the path `Name[-1]` and the path
`Name` give different (both successful) results, because
`lookupType` treats the `name[-1]` segment as indexed and skips a
broadcast level when typing the empty aggregation. -/
theorem c9_counterexample :
    Lookup noJSON (some (.vslice tyName9 [])) ["Name[-1]"] opts0
        = .ok (.vslice tyName9 []) ∧
    Lookup noJSON (some (.vslice tyName9 [])) ["Name"] opts0
        = .ok (.vslice .int []) ∧
    (Except.ok (Value.vslice tyName9 []) : Except Err Value)
        ≠ .ok (.vslice .int []) := by
  have lk1 : lookup noJSON (some (.vslice tyName9 [])) ["Name[-1]"] opts0
      = .ok (some (.vslice tyName9 [])) := by
    rw [lookup_cons]
    rw [show expandStep noJSON opts0 (some (.vslice tyName9 []))
        = some (.vslice tyName9 []) from rfl]
    rw [lookupLoop_err_agg noJSON (some (.vslice tyName9 [])) "Name[-1]" []
      opts0 .keyNotFound (by simp) (by rfl) (by rfl)]
    rw [show expandStep noJSON opts0 (some (.vslice tyName9 []))
        = some (.vslice tyName9 []) from rfl]
    rw [aggreate_slice_empty]
    rw [lookupType_name9_idx]
  have lk2 : lookup noJSON (some (.vslice tyName9 [])) ["Name"] opts0
      = .ok (some (.vslice .int [])) := by
    rw [lookup_cons]
    rw [show expandStep noJSON opts0 (some (.vslice tyName9 []))
        = some (.vslice tyName9 []) from rfl]
    rw [lookupLoop_err_agg noJSON (some (.vslice tyName9 [])) "Name" []
      opts0 .keyNotFound (by simp) (by rfl) (by rfl)]
    rw [show expandStep noJSON opts0 (some (.vslice tyName9 []))
        = some (.vslice tyName9 []) from rfl]
    rw [aggreate_slice_empty]
    rw [lookupType_name9_plain]
  refine ⟨?_, ?_, ?_⟩
  · simp only [Lookup, lk1]
  · simp only [Lookup, lk2]
  · intro h
    have h2 := Except.ok.inj h
    have h3 := (Value.vslice.injEq _ _ _ _).mp h2
    exact absurd h3.1 (by simp [tyName9])

/-- Witness for C9 (amended): segment resolution of `Name[-1]` and of
`Name` agree on a concrete struct. -/
theorem c9_witness :
    getValueByName (some (.vstruct [("Name", Ty.int, .vint 5)])) ("Name" ++ "[-1]") opts0
      = getValueByName (some (.vstruct [("Name", Ty.int, .vint 5)])) "Name" opts0 :=
  c9_sentinel_segment (some (.vstruct [("Name", Ty.int, .vint 5)])) "Name" opts0 (by decide)


/-! ### Claim C10 -/

/-- Claim C10: building the map probe key uses `reflect.New` on the
map's key type followed by `SetString`, so when the key type's kind is
not string (named string types are fine), segment resolution on the map
panics instead of returning a typed error — and so does a whole `Lookup`
touching such a map; with a named string key type (`type MyKey string`)
resolution works normally. -/
theorem c10_map_key_kind :
    (∀ (kty ety : Ty) (en : List (String × Value)) (key : String)
       (r : String × Int) (opts : Options),
       kty.kind ≠ Kind.kstr → parseIndex key = .ok r →
       getValueByName (some (.vmap kty ety en)) key opts = .error .panic) ∧
    Lookup noJSON (some (.vmap .int .int [])) ["foo"] opts0 = .error .panic ∧
    getValueByName (some (.vmap (.named "MyKey" .str) .int [("foo", .vint 42)]))
      "foo" opts0 = .ok (some (.vint 42)) := by
  refine ⟨?_, ?_, ?_⟩
  · intro kty ety en key r opts hk hp
    simp only [getValueByName]
    rw [getValueByNameV]
    rw [hp]
    show (match resolveKey (some (.vmap kty ety en)) r.1 opts with
          | Except.error e => Except.error e
          | Except.ok value =>
            match value with
            | none => Except.error Err.keyNotFound
            | some _ => applyIndex (getRealValue value) r.2)
        = Except.error Err.panic
    simp only [resolveKey]
    rw [if_pos hk]
  · have lk : lookup noJSON (some (.vmap .int .int [])) ["foo"] opts0
        = .error .panic := by
      rw [lookup_cons]
      exact lookupLoop_panic noJSON (some (.vmap .int .int [])) "foo" [] opts0 rfl
    simp only [Lookup, lk]
  · rfl

/-- Witness for C10: the general part applied to `map[int]int{}`. -/
theorem c10_witness :
    getValueByName (some (.vmap .int .int [])) "foo" opts0 = .error .panic :=
  c10_map_key_kind.1 .int .int [] "foo" ("foo", -1) opts0 (by decide) (by rfl)

/-! ### Claim C6 -/

/-- Claim C6, as stated, is false: an out-of-range index does not
produce a typed `IndexOutOfRange` error (no such error exists in this
implementation); `value.Index(index)` panics.  Here `"S[5]"` over a
1-element slice field panics rather than yielding any typed sentinel. -/
theorem c6_counterexample :
    getValueByName (some (.vstruct [("S", Ty.slice .int, .vslice .int [.vint 1])]))
        "S[5]" opts0 = .error .panic ∧
    Err.panic ≠ Err.malformedIndex ∧
    Err.panic ≠ Err.invalidIndexUsage ∧
    Err.panic ≠ Err.keyNotFound := by
  exact ⟨rfl, by decide, by decide, by decide⟩

/-- Claim C6 (amended): for a segment index `i` applied to a sequence of
length `n` with `i ≥ n`, the indexing step panics (the model's `panic`
outcome); no typed error is returned. -/
theorem c6_index_out_of_range (ty : Ty) (es : List Value) (i : Int)
    (h : (es.length : Int) ≤ i) :
    applyIndex (some (.vslice ty es)) i = .error .panic := by
  unfold applyIndex
  rw [if_neg (by omega)]
  show (if hc : 0 ≤ i ∧ i.toNat < es.length
        then Except.ok (getRealValue (some (es.get ⟨i.toNat, hc.2⟩)))
        else Except.error Err.panic) = Except.error Err.panic
  rw [dif_neg (by omega)]

/-- Witness for C6 (amended): index 5 on a 1-element slice panics. -/
theorem c6_witness : applyIndex (some (.vslice .int [.vint 1])) 5 = .error .panic :=
  c6_index_out_of_range .int [.vint 1] 5 (by decide)

/-! ### Claim C7 -/

/-- The struct type of the pointer target used in the C7 counterexample. -/
def c7inner : Value := .vstruct [("S", Ty.slice .int, .vslice .int [.vint 7, .vint 8])]

/-- Claim C7, as stated, is false: when the receiver is itself a pointer
(an indirection), `getValueByName` recurses on `Elem()` with the
already-stripped key, so the index is re-parsed away and lost —
`"S[1]"` through a pointer returns the whole slice, not the element at
position 1 that the claim promises. -/
theorem c7_counterexample :
    getValueByName (some (.vptr (Ty.struct (.cons "S" (.slice .int) .nil)) c7inner))
        "S[1]" opts0 = .ok (some (.vslice .int [.vint 7, .vint 8])) ∧
    (Except.ok (some (.vslice .int [.vint 7, .vint 8]))
        : Except Err (Option Value)) ≠ .ok (some (.vint 8)) := by
  refine ⟨rfl, ?_⟩
  intro h
  have h2 := Except.ok.inj h
  simp at h2

/-- Claim C7 (amended): at the indexing step proper (non-indirection
receiver, matched value already stripped and present): with an index on
a non-sequence the resolution fails with `InvalidIndexUsage`; with an
in-range index on a sequence the element at that position is returned
after stripping indirection.  (Through a pointer/interface receiver the
index is discarded, and an absent stripped value panics — see the
counterexample and C6.) -/
theorem c7_index_usage :
    (∀ (w : Value) (i : Int), i ≠ -1 → (typeOf w).kind ≠ Kind.kslice →
        applyIndex (some w) i = .error .invalidIndexUsage) ∧
    (∀ (ty : Ty) (es : List Value) (i : Int) (h0 : 0 ≤ i)
        (hlt : i.toNat < es.length),
        applyIndex (some (.vslice ty es)) i
          = .ok (getRealValue (some (es.get ⟨i.toNat, hlt⟩)))) := by
  constructor
  · intro w i hne hk
    unfold applyIndex
    rw [if_neg hne]
    cases w with
    | vslice t es => exact absurd rfl hk
    | vstr s => rfl
    | vint n => rfl
    | vbool b => rfl
    | vmap k e en => rfl
    | vstruct fs => rfl
    | vptr t u => rfl
    | vptrNil t => rfl
    | viface u => rfl
    | vifaceNil => rfl
  · intro ty es i h0 hlt
    unfold applyIndex
    rw [if_neg (by omega)]
    show (if hc : 0 ≤ i ∧ i.toNat < es.length
          then Except.ok (getRealValue (some (es.get ⟨i.toNat, hc.2⟩)))
          else Except.error Err.panic)
        = Except.ok (getRealValue (some (es.get ⟨i.toNat, hlt⟩)))
    rw [dif_pos ⟨h0, hlt⟩]

/-- Witness for C7 (amended): an index on an int fails with
`InvalidIndexUsage`; index 1 on a 2-element slice returns the element. -/
theorem c7_witness :
    applyIndex (some (.vint 3)) 0 = .error .invalidIndexUsage ∧
    applyIndex (some (.vslice .int [.vint 7, .vint 8])) 1 = .ok (some (.vint 8)) := by
  constructor
  · exact c7_index_usage.1 (.vint 3) 0 (by decide) (by decide)
  · exact (c7_index_usage.2 .int [.vint 7, .vint 8] 1 (by decide) (by decide)).trans rfl


/-! ### Claim C2 -/

/-- The struct type `struct{String string}` used in the empty-collection
example. -/
def myStructTy : Ty := .struct (.cons "String" .str .nil)

/-- `lookupType` broadcast through `[]struct{String string}` for the
remaining path `["String"]` resolves to `string`. -/
theorem lookupType_myStruct_string :
    lookupType (Ty.slice myStructTy) ["String"] = some Ty.str := by
  rw [lookupType_slice]
  rw [if_neg (by decide)]
  show lookupType myStructTy ["String"] = some Ty.str
  rw [show myStructTy = Ty.struct (.cons "String" .str .nil) from rfl]
  rw [lookupType_struct]
  show lookupType Ty.str [] = some Ty.str
  rw [lookupType_nil]

/-- Claim C2: aggregation invoked on an empty sequence or associative
collection does not fail when the structural type resolver determines
the element type of the remaining path — it returns an empty sequence of
exactly that type — and fails with `KeyNotFound` when the resolver
cannot; e.g. `Lookup` over `[][]struct{String string}{{}}` with path
`String` returns an empty `[]string`, not an error. -/
theorem c2_empty_aggregation (d : Decoder) (path : List String)
    (opts : Options) (kty ety : Ty) :
    (aggreateAggregableValue d (some (.vslice ety [])) path opts =
      (match lookupType (Ty.slice ety) path with
       | some t => .ok (some (.vslice t []))
       | none => .error .keyNotFound)) ∧
    (aggreateAggregableValue d (some (.vmap kty ety [])) path opts =
      (match lookupType (Ty.map kty ety) path with
       | some t => .ok (some (.vslice t []))
       | none => .error .keyNotFound)) ∧
    Lookup noJSON (some (.vslice (Ty.slice myStructTy) [.vslice myStructTy []]))
      ["String"] opts0 = .ok (.vslice .str []) := by
  refine ⟨aggreate_slice_empty d ety path opts,
          aggreate_map_empty d kty ety path opts, ?_⟩
  have inner : lookup noJSON (some (.vslice myStructTy [])) ["String"] opts0
      = .ok (some (.vslice .str [])) := by
    rw [lookup_cons]
    rw [show expandStep noJSON opts0 (some (.vslice myStructTy []))
        = some (.vslice myStructTy []) from rfl]
    rw [lookupLoop_err_agg noJSON (some (.vslice myStructTy [])) "String" []
      opts0 .keyNotFound (by simp) (by rfl) (by rfl)]
    rw [show expandStep noJSON opts0 (some (.vslice myStructTy []))
        = some (.vslice myStructTy []) from rfl]
    rw [aggreate_slice_empty]
    rw [lookupType_myStruct_string]
  have outer : lookup noJSON
      (some (.vslice (Ty.slice myStructTy) [.vslice myStructTy []]))
      ["String"] opts0 = .ok (some (.vslice .str [])) := by
    rw [lookup_cons]
    rw [show expandStep noJSON opts0
        (some (.vslice (Ty.slice myStructTy) [.vslice myStructTy []]))
        = some (.vslice (Ty.slice myStructTy) [.vslice myStructTy []]) from rfl]
    rw [lookupLoop_err_agg noJSON
      (some (.vslice (Ty.slice myStructTy) [.vslice myStructTy []])) "String" []
      opts0 .keyNotFound (by simp) (by rfl) (by rfl)]
    rw [show expandStep noJSON opts0
        (some (.vslice (Ty.slice myStructTy) [.vslice myStructTy []]))
        = some (.vslice (Ty.slice myStructTy) [.vslice myStructTy []]) from rfl]
    rw [aggreate_slice_cons]
    rw [collect_cons, collect_nil]
    rw [show valueOfInterface (.vslice myStructTy [])
        = some (.vslice myStructTy []) from rfl]
    rw [inner]
    rfl
  simp only [Lookup, outer]

/-! ### Claim C3 -/

/-- The per-element loop aborts with the first failing element's error. -/
theorem collect_error_at (d : Decoder) (path : List String) (opts : Options) :
    ∀ (es : List Value) (i : Nat) (hi : i < es.length) (e : Err),
      lookup d (valueOfInterface (es.get ⟨i, hi⟩)) path opts = .error e →
      (∀ u ∈ es.take i, ∃ w, lookup d (valueOfInterface u) path opts = .ok w) →
      collectLookups d es path opts = .error e := by
  intro es
  induction es with
  | nil => intro i hi; simp at hi
  | cons e0 rest ih =>
    intro i hi e hfail hpre
    cases i with
    | zero =>
      rw [collect_cons]
      simp only [List.get] at hfail
      rw [hfail]
    | succ j =>
      obtain ⟨w, hw⟩ := hpre e0 (by
        simp [List.take_cons, List.mem_cons])
      rw [collect_cons, hw]
      have hrec := ih j (by simpa using hi) e (by simpa using hfail) (by
        intro u hu
        exact hpre u (by simp [List.take_cons, hu]))
      rw [hrec]

/-- If the per-element loop finishes, every element's lookup succeeded. -/
theorem collect_ok_all (d : Decoder) (path : List String) (opts : Options) :
    ∀ (es : List Value) (ws : List (Option Value)),
      collectLookups d es path opts = .ok ws →
      ∀ u ∈ es, ∃ w, lookup d (valueOfInterface u) path opts = .ok w := by
  intro es
  induction es with
  | nil => intro ws _ u hu; simp at hu
  | cons e0 rest ih =>
    intro ws hws u hu
    rw [collect_cons] at hws
    rcases hc : lookup d (valueOfInterface e0) path opts with e' | w0
    · rw [hc] at hws; simp at hws
    · rw [hc] at hws
      rcases hr : collectLookups d rest path opts with e' | ws0
      · rw [hr] at hws; simp at hws
      · rcases List.mem_cons.mp hu with h0 | hrest
        · exact ⟨w0, h0 ▸ hc⟩
        · exact ih ws0 hr u hrest

/-- Aggregation over a non-empty slice, stated without the cons shape. -/
theorem aggreate_slice_ne (d : Decoder) (ety : Ty) (es : List Value)
    (path : List String) (opts : Options) (hne : es ≠ []) :
    aggreateAggregableValue d (some (.vslice ety es)) path opts =
      (match collectLookups d es path opts with
       | .error err => .error err
       | .ok vs => mergeValue vs) := by
  cases es with
  | nil => exact absurd rfl hne
  | cons e0 rest => exact aggreate_slice_cons d ety e0 rest path opts

/-- Aggregation over a non-empty map, stated without the cons shape. -/
theorem aggreate_map_ne (d : Decoder) (kty ety : Ty)
    (en : List (String × Value)) (path : List String) (opts : Options)
    (hne : en ≠ []) :
    aggreateAggregableValue d (some (.vmap kty ety en)) path opts =
      (match collectLookups d (en.map (·.2)) path opts with
       | .error err => .error err
       | .ok vs => mergeValue vs) := by
  cases en with
  | nil => exact absurd rfl hne
  | cons e0 rest => exact aggreate_map_cons d kty ety e0 rest path opts

/-- Claim C3: aggregation over a non-empty collection is fail-fast — if
the recursive lookup of the element at position `i` fails with `e` while
every earlier element succeeds, the whole aggregation returns exactly
`e`; and whenever any element's lookup fails, the aggregation never
returns a (partial) success. -/
theorem c3_fail_fast (d : Decoder) (v : Value) (path : List String)
    (opts : Options) (hagg : isAggregable (some v) = true) :
    (∀ (i : Nat) (hi : i < (elemsOf v).length) (e : Err),
       lookup d (valueOfInterface ((elemsOf v).get ⟨i, hi⟩)) path opts = .error e →
       (∀ u ∈ (elemsOf v).take i, ∃ w, lookup d (valueOfInterface u) path opts = .ok w) →
       aggreateAggregableValue d (some v) path opts = .error e) ∧
    ((∃ u ∈ elemsOf v, ∀ w, lookup d (valueOfInterface u) path opts ≠ .ok w) →
       ∀ w, aggreateAggregableValue d (some v) path opts ≠ .ok w) := by
  cases v with
  | vslice ety es =>
    constructor
    · intro i hi e hfail hpre
      have hne : es ≠ [] := by
        intro h
        rw [h] at hi
        simp [elemsOf] at hi
      rw [aggreate_slice_ne d ety es path opts hne]
      rw [collect_error_at d path opts es i (by simpa [elemsOf] using hi) e
        (by simpa [elemsOf] using hfail) (by simpa [elemsOf] using hpre)]
    · rintro ⟨u, hu, hbad⟩ w hok
      have hne : es ≠ [] := by
        intro h
        rw [h] at hu
        simp [elemsOf] at hu
      rw [aggreate_slice_ne d ety es path opts hne] at hok
      rcases hc : collectLookups d es path opts with e' | ws
      · rw [hc] at hok; simp at hok
      · obtain ⟨w0, hw0⟩ := collect_ok_all d path opts es ws hc u
          (by simpa [elemsOf] using hu)
        exact hbad w0 hw0
  | vmap kty ety en =>
    constructor
    · intro i hi e hfail hpre
      have hne : en ≠ [] := by
        intro h
        rw [h] at hi
        simp [elemsOf] at hi
      rw [aggreate_map_ne d kty ety en path opts hne]
      rw [collect_error_at d path opts (en.map (·.2)) i
        (by simpa [elemsOf] using hi) e (by simpa [elemsOf] using hfail)
        (by simpa [elemsOf] using hpre)]
    · rintro ⟨u, hu, hbad⟩ w hok
      have hne : en ≠ [] := by
        intro h
        rw [h] at hu
        simp [elemsOf] at hu
      rw [aggreate_map_ne d kty ety en path opts hne] at hok
      rcases hc : collectLookups d (en.map (·.2)) path opts with e' | ws
      · rw [hc] at hok; simp at hok
      · obtain ⟨w0, hw0⟩ := collect_ok_all d path opts (en.map (·.2)) ws hc u
          (by simpa [elemsOf] using hu)
        exact hbad w0 hw0
  | vstr s => simp [isAggregable] at hagg
  | vint n => simp [isAggregable] at hagg
  | vbool b => simp [isAggregable] at hagg
  | vstruct fs => simp [isAggregable] at hagg
  | vptr t u => simp [isAggregable] at hagg
  | vptrNil t => simp [isAggregable] at hagg
  | viface u => simp [isAggregable] at hagg
  | vifaceNil => simp [isAggregable] at hagg


/-- A 1-field struct whose `Name` is a 1-element int slice (element 0 of
the C3 witness collection). -/
def okElem : Value := .vstruct [("Name", Ty.slice .int, .vslice .int [.vint 5])]

/-- A 1-field struct whose `Name` is an int (element 1 of the C3 witness
collection; indexing it fails with `InvalidIndexUsage`). -/
def badElem : Value := .vstruct [("Name", Ty.int, .vint 3)]

/-- Witness for C3: over `[okElem, badElem]` with path `Name[0]`, the
first element succeeds, the second fails with `InvalidIndexUsage`, and
the aggregation returns exactly that error. -/
theorem c3_witness :
    aggreateAggregableValue noJSON
      (some (.vslice (Ty.struct .nil) [okElem, badElem])) ["Name[0]"] opts0
      = .error .invalidIndexUsage := by
  have hok : lookup noJSON (some okElem) ["Name[0]"] opts0
      = .ok (some (.vint 5)) := by
    rw [lookup_cons]
    rw [lookupLoop_ok noJSON (expandStep noJSON opts0 (some okElem))
      (some (.vint 5)) "Name[0]" [] opts0 (by rfl)]
    exact lookupLoop_nil noJSON (some (.vint 5)) opts0
  have hbad : lookup noJSON (some badElem) ["Name[0]"] opts0
      = .error .invalidIndexUsage := by
    rw [lookup_cons]
    exact lookupLoop_err_noagg noJSON (expandStep noJSON opts0 (some badElem))
      "Name[0]" [] opts0 .invalidIndexUsage (by simp) (by rfl) (by rfl)
  exact (c3_fail_fast noJSON (.vslice (Ty.struct .nil) [okElem, badElem])
      ["Name[0]"] opts0 rfl).1 1 (by decide) .invalidIndexUsage hbad
    (by
      intro u hu
      have : u = okElem := by
        simpa [elemsOf] using hu
      exact ⟨some (.vint 5), this ▸ hok⟩)

/-! ### Claim C4 -/

/-- Claim C4 (amended): whenever the internal walk ends with the absent
(invalid) value, the public `Lookup` does not return `KeyNotFound`; it
unwraps the absent value with `Interface()` and panics. -/
theorem c4_absent_result_panics (d : Decoder) (v : Option Value)
    (path : List String) (opts : Options)
    (h : lookup d v path opts = .ok none) :
    Lookup d v path opts = .error .panic := by
  simp only [Lookup, h]

/-- A struct whose only field is a nil pointer: looking up that field
succeeds with the invalid value, so merging drops it and the aggregation
returns the absent value. -/
def nilPtrElem : Value := .vstruct [("Nested", Ty.ptr .iface, .vptrNil .iface)]

/-- Claim C4, as stated, is false: over a slice of one struct whose
`Nested` field is a nil pointer, the aggregation/merge ends with no
valid values, and `Lookup` panics instead of returning `KeyNotFound`. -/
theorem c4_counterexample :
    Lookup noJSON (some (.vslice (Ty.struct .nil) [nilPtrElem])) ["Nested"] opts0
        = .error .panic ∧
    (Except.error Err.panic : Except Err Value) ≠ .error .keyNotFound := by
  have helem : lookup noJSON (some nilPtrElem) ["Nested"] opts0 = .ok none := by
    rw [lookup_cons]
    rw [lookupLoop_ok noJSON (expandStep noJSON opts0 (some nilPtrElem)) none
      "Nested" [] opts0 (by rfl)]
    exact lookupLoop_nil noJSON none opts0
  have lk : lookup noJSON (some (.vslice (Ty.struct .nil) [nilPtrElem]))
      ["Nested"] opts0 = .ok none := by
    rw [lookup_cons]
    rw [show expandStep noJSON opts0 (some (.vslice (Ty.struct .nil) [nilPtrElem]))
        = some (.vslice (Ty.struct .nil) [nilPtrElem]) from rfl]
    rw [lookupLoop_err_agg noJSON (some (.vslice (Ty.struct .nil) [nilPtrElem]))
      "Nested" [] opts0 .keyNotFound (by simp) (by rfl) (by rfl)]
    rw [show expandStep noJSON opts0 (some (.vslice (Ty.struct .nil) [nilPtrElem]))
        = some (.vslice (Ty.struct .nil) [nilPtrElem]) from rfl]
    rw [aggreate_slice_cons]
    rw [collect_cons, collect_nil]
    rw [show valueOfInterface nilPtrElem = some nilPtrElem from rfl]
    rw [helem]
    rfl
  exact ⟨c4_absent_result_panics noJSON _ _ _ lk, by simp⟩

/-- Witness for C4 (amended): the general absent-result theorem applied
to the concrete slice-of-nil-pointer-field input. -/
theorem c4_witness :
    Lookup noJSON (some (.vstruct [("Nested", Ty.ptr .iface, .vptrNil .iface)]))
      ["Nested"] opts0 = .error .panic := by
  apply c4_absent_result_panics
  rw [lookup_cons]
  rw [lookupLoop_ok noJSON
    (expandStep noJSON opts0 (some (.vstruct [("Nested", Ty.ptr .iface, .vptrNil .iface)])))
    none "Nested" [] opts0 (by rfl)]
  exact lookupLoop_nil noJSON none opts0


/-! ### Claim C1 -/

/-- Unfolding `mergeValue` once the filtered values are known. -/
theorem mergeValue_cons (sample : Value) (rest : List Value)
    (vs : List (Option Value)) (h : removeZeroValues vs = sample :: rest) :
    mergeValue vs =
      (match mergeFold (isMergeable sample)
          (if isMergeable sample then tyElem (typeOf sample) else typeOf sample)
          [] (sample :: rest) with
       | .error e => .error e
       | .ok es => .ok (some (.vslice
           (if isMergeable sample then tyElem (typeOf sample) else typeOf sample)
           es))) := by
  unfold mergeValue
  rw [h]

/-- The merge loop over same-typed slices concatenates them. -/
theorem mergeFold_slices (T : Ty) : ∀ (ess : List (List Value)) (acc : List Value),
    mergeFold true T acc (ess.map fun es => Value.vslice T es)
      = .ok (acc ++ ess.flatten) := by
  intro ess
  induction ess with
  | nil => intro acc; simp [mergeFold]
  | cons es0 rest ih =>
    intro acc
    show (match appendSliceGo T acc (Value.vslice T es0) with
          | Except.error e => Except.error e
          | Except.ok acc2 =>
            mergeFold true T acc2 (List.map (fun es => Value.vslice T es) rest))
        = Except.ok (acc ++ (es0 :: rest).flatten)
    rw [show appendSliceGo T acc (Value.vslice T es0)
        = if T = T then Except.ok (acc ++ es0) else Except.error Err.panic from rfl]
    rw [if_pos rfl]
    show mergeFold true T (acc ++ es0) (List.map (fun es => Value.vslice T es) rest)
        = Except.ok (acc ++ (es0 :: rest).flatten)
    rw [ih (acc ++ es0)]
    simp

/-- The merge loop over same-typed non-collection entries appends each. -/
theorem mergeFold_append (T : Ty) : ∀ (xs : List Value) (acc : List Value),
    (∀ x ∈ xs, typeOf x = T) →
    mergeFold false T acc xs = .ok (acc ++ xs) := by
  intro xs
  induction xs with
  | nil => intro acc _; simp [mergeFold]
  | cons x0 rest ih =>
    intro acc hall
    show (match appendGo T acc x0 with
          | Except.error e => Except.error e
          | Except.ok acc2 => mergeFold false T acc2 rest)
        = Except.ok (acc ++ x0 :: rest)
    rw [show appendGo T acc x0
        = if typeOf x0 = T then Except.ok (acc ++ [x0])
          else if T = Ty.iface then Except.ok (acc ++ [Value.viface x0])
          else Except.error Err.panic from rfl]
    rw [if_pos (hall x0 (List.mem_cons_self x0 rest))]
    show mergeFold false T (acc ++ [x0]) rest = Except.ok (acc ++ x0 :: rest)
    rw [ih (acc ++ [x0]) (fun x hx => hall x (List.mem_cons_of_mem _ hx))]
    simp

/-- The structs of the 2×2 nested-aggregation example: a leaf struct
carrying a `String` field. -/
def leafTy : Ty := .struct (.cons "String" .str .nil)

/-- A leaf `struct{String string}` value. -/
def leaf (s : String) : Value := .vstruct [("String", .str, .vstr s)]

/-- A middle struct carrying a 2-element `StructSlice` of leaves. -/
def inner2 (a b : String) : Value :=
  .vstruct [("String", .str, .vstr "x"),
            ("StructSlice", .slice leafTy, .vslice leafTy [leaf a, leaf b])]

/-- The 2×2 fixture: `StructSlice` of two `inner2` values. -/
def fix2 : Value :=
  .vstruct [("StructSlice", .slice leafTy,
             .vslice leafTy [inner2 "bar" "foo", inner2 "qux" "baz"])]

/-- Looking up `String` on a leaf. -/
theorem lookup_leaf (s : String) :
    lookup noJSON (some (leaf s)) ["String"] opts0 = .ok (some (.vstr s)) := by
  rw [lookup_cons]
  rw [lookupLoop_ok noJSON (expandStep noJSON opts0 (some (leaf s)))
    (some (.vstr s)) "String" [] opts0 (by rfl)]
  exact lookupLoop_nil noJSON (some (.vstr s)) opts0

/-- Looking up `StructSlice.String` on a middle struct merges the two
leaf strings into one 2-element sequence. -/
theorem lookup_inner2 (a b : String) :
    lookup noJSON (some (inner2 a b)) ["StructSlice", "String"] opts0
      = .ok (some (.vslice .str [.vstr a, .vstr b])) := by
  rw [lookup_cons]
  rw [lookupLoop_ok noJSON (expandStep noJSON opts0 (some (inner2 a b)))
    (some (.vslice leafTy [leaf a, leaf b])) "StructSlice" ["String"] opts0 (by rfl)]
  rw [lookupLoop_err_agg noJSON (some (.vslice leafTy [leaf a, leaf b]))
    "String" [] opts0 .keyNotFound (by simp) (by rfl) (by rfl)]
  rw [show expandStep noJSON opts0 (some (.vslice leafTy [leaf a, leaf b]))
      = some (.vslice leafTy [leaf a, leaf b]) from rfl]
  rw [aggreate_slice_cons]
  rw [collect_cons, collect_cons, collect_nil]
  rw [show valueOfInterface (leaf a) = some (leaf a) from rfl]
  rw [show valueOfInterface (leaf b) = some (leaf b) from rfl]
  rw [lookup_leaf a, lookup_leaf b]
  show mergeValue [some (.vstr a), some (.vstr b)]
      = .ok (some (.vslice .str [.vstr a, .vstr b]))
  rfl

/-- Claim C1 (amended): the merger inspects the first valid entry; when
it is a sequence (and all valid entries are sequences of the same
element type) the result is one flat sequence concatenating their
elements; when it is neither a sequence nor an associative collection
(and all valid entries share its type) each entry is appended singly;
and `StructSlice.StructSlice.String` over 2×2 elements yields one flat
4-element sequence.  (When the first valid entry is an associative
collection the merger panics — see the counterexample.) -/
theorem c1_merger_flattening :
    (∀ (vs : List (Option Value)) (T : Ty) (ess : List (List Value)),
       removeZeroValues vs = ess.map (fun es => Value.vslice T es) → ess ≠ [] →
       mergeValue vs = .ok (some (.vslice T ess.flatten))) ∧
    (∀ (vs : List (Option Value)) (x0 : Value) (xs : List Value),
       removeZeroValues vs = x0 :: xs → isMergeable x0 = false →
       (∀ x ∈ x0 :: xs, typeOf x = typeOf x0) →
       mergeValue vs = .ok (some (.vslice (typeOf x0) (x0 :: xs)))) ∧
    Lookup noJSON (some fix2) ["StructSlice", "StructSlice", "String"] opts0
      = .ok (.vslice .str [.vstr "bar", .vstr "foo", .vstr "qux", .vstr "baz"]) := by
  refine ⟨?_, ?_, ?_⟩
  · intro vs T ess h hne
    cases ess with
    | nil => exact absurd rfl hne
    | cons es0 rest =>
      rw [mergeValue_cons (Value.vslice T es0)
        (rest.map fun es => Value.vslice T es) vs (by simpa using h)]
      rw [show isMergeable (Value.vslice T es0) = true from rfl]
      simp only [if_pos]
      rw [show tyElem (typeOf (Value.vslice T es0)) = T from rfl]
      rw [show (Value.vslice T es0 :: rest.map fun es => Value.vslice T es)
          = (es0 :: rest).map (fun es => Value.vslice T es) from rfl]
      rw [mergeFold_slices T (es0 :: rest) []]
      simp
  · intro vs x0 xs h hnm hall
    rw [mergeValue_cons x0 xs vs h]
    rw [hnm]
    simp only [Bool.false_eq_true, if_false]
    rw [mergeFold_append (typeOf x0) (x0 :: xs) [] hall]
    simp
  · have lk : lookup noJSON (some fix2) ["StructSlice", "StructSlice", "String"]
        opts0 = .ok (some (.vslice .str
          [.vstr "bar", .vstr "foo", .vstr "qux", .vstr "baz"])) := by
      rw [lookup_cons]
      rw [lookupLoop_ok noJSON (expandStep noJSON opts0 (some fix2))
        (some (.vslice leafTy [inner2 "bar" "foo", inner2 "qux" "baz"]))
        "StructSlice" ["StructSlice", "String"] opts0 (by rfl)]
      rw [lookupLoop_err_agg noJSON
        (some (.vslice leafTy [inner2 "bar" "foo", inner2 "qux" "baz"]))
        "StructSlice" ["String"] opts0 .keyNotFound (by simp) (by rfl) (by rfl)]
      rw [show expandStep noJSON opts0
          (some (.vslice leafTy [inner2 "bar" "foo", inner2 "qux" "baz"]))
          = some (.vslice leafTy [inner2 "bar" "foo", inner2 "qux" "baz"]) from rfl]
      rw [aggreate_slice_cons]
      rw [collect_cons, collect_cons, collect_nil]
      rw [show valueOfInterface (inner2 "bar" "foo") = some (inner2 "bar" "foo") from rfl]
      rw [show valueOfInterface (inner2 "qux" "baz") = some (inner2 "qux" "baz") from rfl]
      rw [lookup_inner2 "bar" "foo", lookup_inner2 "qux" "baz"]
      show mergeValue [some (.vslice .str [.vstr "bar", .vstr "foo"]),
                       some (.vslice .str [.vstr "qux", .vstr "baz"])]
          = .ok (some (.vslice .str [.vstr "bar", .vstr "foo", .vstr "qux", .vstr "baz"]))
      rfl
    simp only [Lookup, lk]

/-- A struct with a `Map` field holding `map[string]int{"foo": n}`. -/
def mElem (n : Int) : Value :=
  .vstruct [("Map", Ty.map .str .int, .vmap .str .int [("foo", .vint n)])]

/-- A struct with a `StructSlice` of two `mElem` values. -/
def mapFix : Value :=
  .vstruct [("StructSlice", Ty.slice (Ty.struct .nil),
             .vslice (Ty.struct .nil) [mElem 1, mElem 2])]

/-- Claim C1, as stated, is false for associative entries: when the
first valid entry is a map, the merger calls `reflect.AppendSlice` on a
non-slice and panics instead of concatenating the entries' elements —
both at the merger itself and through a whole `Lookup`
(`StructSlice.Map`). -/
theorem c1_counterexample :
    mergeValue [some (.vmap .str .int [("a", .vint 1)]),
                some (.vmap .str .int [("b", .vint 2)])] = .error .panic ∧
    Lookup noJSON (some mapFix) ["StructSlice", "Map"] opts0 = .error .panic := by
  constructor
  · rfl
  · have hm : ∀ n : Int, lookup noJSON (some (mElem n)) ["Map"] opts0
        = .ok (some (.vmap .str .int [("foo", .vint n)])) := by
      intro n
      rw [lookup_cons]
      rw [lookupLoop_ok noJSON (expandStep noJSON opts0 (some (mElem n)))
        (some (.vmap .str .int [("foo", .vint n)])) "Map" [] opts0 (by rfl)]
      exact lookupLoop_nil noJSON _ opts0
    have lk : lookup noJSON (some mapFix) ["StructSlice", "Map"] opts0
        = .error .panic := by
      rw [lookup_cons]
      rw [lookupLoop_ok noJSON (expandStep noJSON opts0 (some mapFix))
        (some (.vslice (Ty.struct .nil) [mElem 1, mElem 2]))
        "StructSlice" ["Map"] opts0 (by rfl)]
      rw [lookupLoop_err_agg noJSON
        (some (.vslice (Ty.struct .nil) [mElem 1, mElem 2]))
        "Map" [] opts0 .keyNotFound (by simp) (by rfl) (by rfl)]
      rw [show expandStep noJSON opts0
          (some (.vslice (Ty.struct .nil) [mElem 1, mElem 2]))
          = some (.vslice (Ty.struct .nil) [mElem 1, mElem 2]) from rfl]
      rw [aggreate_slice_cons]
      rw [collect_cons, collect_cons, collect_nil]
      rw [show valueOfInterface (mElem 1) = some (mElem 1) from rfl]
      rw [show valueOfInterface (mElem 2) = some (mElem 2) from rfl]
      rw [hm 1, hm 2]
      show mergeValue [some (.vmap .str .int [("foo", .vint 1)]),
                       some (.vmap .str .int [("foo", .vint 2)])] = .error .panic
      rfl
    simp only [Lookup, lk]

/-- Witness for C1 (amended): the slice part applied to two concrete
sequences and the scalar part applied to two strings. -/
theorem c1_witness :
    mergeValue [some (.vslice .str [.vstr "foo", .vstr "bar"]),
                some (.vslice .str [.vstr "qux", .vstr "baz"])]
      = .ok (some (.vslice .str [.vstr "foo", .vstr "bar", .vstr "qux", .vstr "baz"])) ∧
    mergeValue [some (.vstr "qux"), some (.vstr "foo")]
      = .ok (some (.vslice .str [.vstr "qux", .vstr "foo"])) := by
  constructor
  · exact (c1_merger_flattening.1
      [some (.vslice .str [.vstr "foo", .vstr "bar"]),
       some (.vslice .str [.vstr "qux", .vstr "baz"])] .str
      [[.vstr "foo", .vstr "bar"], [.vstr "qux", .vstr "baz"]]
      (by rfl) (by simp)).trans (by rfl)
  · exact (c1_merger_flattening.2.1
      [some (.vstr "qux"), some (.vstr "foo")] (.vstr "qux") [.vstr "foo"]
      (by rfl) (by rfl) (by
        intro x hx
        rcases List.mem_cons.mp hx with h1 | h2
        · rw [h1]
        · simp at h2
          rw [h2]
          rfl)).trans (by rfl)



/-! ### Claim C8 -/

/-- `find?` returns the head of the filtered list. -/
theorem find?_eq_head_filter {α : Type} (p : α → Bool) (l : List α) :
    l.find? p = (l.filter p).head? := by
  induction l with
  | nil => rfl
  | cons x xs ih =>
    by_cases hx : p x = true
    · rw [List.find?_cons_of_pos xs hx, List.filter_cons_of_pos hx]
      rfl
    · rw [List.find?_cons_of_neg xs hx, List.filter_cons_of_neg hx, ih]

/-- Permuted lists of length at most one are equal. -/
theorem perm_eq_of_length_le_one {α : Type} (l1 l2 : List α)
    (h : l1.Perm l2) (hl : l1.length ≤ 1) : l1 = l2 := by
  cases l1 with
  | nil => rw [List.Perm.eq_nil h.symm]
  | cons x xs =>
    cases xs with
    | nil => rw [List.perm_singleton.mp h.symm]
    | cons y ys => simp at hl

/-- `find?` is invariant under permutation when at most one element
satisfies the predicate. -/
theorem find?_perm_unique {α : Type} (p : α → Bool) (l1 l2 : List α)
    (h : l1.Perm l2) (hu : (l1.filter p).length ≤ 1) :
    l1.find? p = l2.find? p := by
  rw [find?_eq_head_filter, find?_eq_head_filter]
  rw [perm_eq_of_length_le_one (l1.filter p) (l2.filter p) (h.filter p) hu]

/-- With pairwise-distinct keys, at most one entry matches a key exactly. -/
theorem filter_keyeq_len_le_one (key : String) :
    ∀ (en : List (String × Value)), (en.map Prod.fst).Nodup →
      (en.filter fun e => e.1 == key).length ≤ 1
  | [], _ => by simp
  | e :: rest, hnd => by
    have hnd' : e.1 ∉ rest.map Prod.fst ∧ (rest.map Prod.fst).Nodup := by
      simpa using hnd
    by_cases he : e.1 == key
    · have hkey : e.1 = key := by simpa using he
      have hrest : rest.filter (fun x => x.1 == key) = [] := by
        rw [List.filter_eq_nil_iff]
        intro a ha
        simp only [beq_iff_eq]
        intro hak
        exact hnd'.1 (by
          rw [hkey, ← hak]
          exact List.mem_map_of_mem Prod.fst ha)
      simp [List.filter_cons, he, hrest]
    · simp only [List.filter_cons, he]
      simpa using filter_keyeq_len_le_one key rest hnd'.2

/-- Claim C8 (amended): the map arm of segment resolution is independent
of the map's iteration order — i.e. of the layout of the entry list,
all permutations representing the same Go map — provided the exact probe
hits, or at most one key case-folds to the probe.  (With several
case-folding keys and no exact hit, the winner depends on the iteration
order, which Go randomizes per call — see the counterexample.)  The
traversal itself is read-only: it is a pure function of the entry list. -/
theorem c8_lookup_iteration_order (en1 en2 : List (String × Value))
    (key : String) (ci : Bool) (hp : en1.Perm en2)
    (hnd : (en1.map Prod.fst).Nodup)
    (hu : (assocFind en1 key).isSome = true ∨
      (en1.filter fun e => eqFold key e.1).length ≤ 1) :
    mapLookupStep en1 key ci = mapLookupStep en2 key ci := by
  have hexact : en1.find? (fun e => e.1 == key) = en2.find? (fun e => e.1 == key) :=
    find?_perm_unique _ en1 en2 hp (filter_keyeq_len_le_one key en1 hnd)
  have haf : assocFind en1 key = assocFind en2 key := by
    unfold assocFind
    rw [hexact]
  unfold mapLookupStep
  rw [haf]
  cases hv : assocFind en2 key with
  | some w => simp
  | none =>
    by_cases hci : ci
    · simp only [hci, Option.isNone_none, true_and, if_pos]
      have hufold : (en1.filter fun e => eqFold key e.1).length ≤ 1 := by
        rcases hu with hl | hr
        · rw [haf, hv] at hl
          simp at hl
        · exact hr
      have hfold : en1.find? (fun e => eqFold key e.1)
          = en2.find? (fun e => eqFold key e.1) :=
        find?_perm_unique _ en1 en2 hp hufold
      rw [hfold]
      cases hf : en2.find? (fun e => eqFold key e.1) with
      | none => rfl
      | some e =>
        show assocFind en1 e.1 = assocFind en2 e.1
        unfold assocFind
        rw [find?_perm_unique _ en1 en2 hp (filter_keyeq_len_le_one e.1 en1 hnd)]
    · simp [hci]

/-- Claim C8, as stated, is false: the two entry layouts below are
permutations of each other with distinct keys — they are the same Go
map value, whose iteration order is not part of the `Lookup` arguments
(Go randomizes it per call) — yet with `CaseInsentitive` set and two
keys folding to `"foo"`, the case-insensitive fallback returns whichever
matching key that iteration order yields first: 1 for one order, 2 for
the other.  Two calls with identical arguments can therefore differ. -/
theorem c8_counterexample :
    ([("FOO", Value.vint 1), ("Foo", Value.vint 2)]).Perm
      [("Foo", Value.vint 2), ("FOO", Value.vint 1)] ∧
    (["FOO", "Foo"] : List String).Nodup ∧
    Lookup noJSON (some (.vmap .str .int [("FOO", .vint 1), ("Foo", .vint 2)]))
      ["foo"] optsCI = .ok (.vint 1) ∧
    Lookup noJSON (some (.vmap .str .int [("Foo", .vint 2), ("FOO", .vint 1)]))
      ["foo"] optsCI = .ok (.vint 2) ∧
    (Except.ok (Value.vint 1) : Except Err Value) ≠ .ok (.vint 2) := by
  refine ⟨List.Perm.swap ("Foo", Value.vint 2) ("FOO", Value.vint 1) [],
    by decide, ?_, ?_, ?_⟩
  · have lk : lookup noJSON
        (some (.vmap .str .int [("FOO", .vint 1), ("Foo", .vint 2)]))
        ["foo"] optsCI = .ok (some (.vint 1)) := by
      rw [lookup_cons]
      rw [lookupLoop_ok noJSON (expandStep noJSON optsCI
        (some (.vmap .str .int [("FOO", .vint 1), ("Foo", .vint 2)])))
        (some (.vint 1)) "foo" [] optsCI (by rfl)]
      exact lookupLoop_nil noJSON _ optsCI
    simp only [Lookup, lk]
  · have lk : lookup noJSON
        (some (.vmap .str .int [("Foo", .vint 2), ("FOO", .vint 1)]))
        ["foo"] optsCI = .ok (some (.vint 2)) := by
      rw [lookup_cons]
      rw [lookupLoop_ok noJSON (expandStep noJSON optsCI
        (some (.vmap .str .int [("Foo", .vint 2), ("FOO", .vint 1)])))
        (some (.vint 2)) "foo" [] optsCI (by rfl)]
      exact lookupLoop_nil noJSON _ optsCI
    simp only [Lookup, lk]
  · intro h
    have h2 := Except.ok.inj h
    simp at h2

/-- Witness for C8 (amended): with a single case-folding key, the map
resolution step agrees on both entry orders. -/
theorem c8_witness :
    mapLookupStep [("A", Value.vint 1), ("B", Value.vint 2)] "a" true
      = mapLookupStep [("B", Value.vint 2), ("A", Value.vint 1)] "a" true :=
  c8_lookup_iteration_order [("A", Value.vint 1), ("B", Value.vint 2)]
    [("B", Value.vint 2), ("A", Value.vint 1)] "a" true
    (List.Perm.swap ("B", Value.vint 2) ("A", Value.vint 1) [])
    (by decide) (Or.inr (by decide))

end GoLookup
